import Mathlib

/-!
Verification of the MQTT session layer of
`demos/defender/defender_demo_json/mqtt_operations.c` from the
aws-iot-device-sdk-embedded-C repository.

The C file maintains a fixed-capacity table of in-flight QoS1 outgoing
publishes, resends or clears it on (re)connect depending on whether the
broker reports a resumed session, and correlates acknowledgment packets
to pending requests through a blocking process-loop wait.  The
definitions below are a shallow embedding of those functions: the static
array `outgoingPublishPackets[ MAX_OUTGOING_PUBLISHES ]` becomes a
`List PublishPackets`, external collaborators (`MQTT_Publish`,
`MQTT_ProcessLoop`, `MQTT_GetPacketId`, `Openssl_Connect`, `rand`) become
explicit oracle parameters, and mutation of the static globals becomes
explicit state passing.
-/

/-- `MAX_OUTGOING_PUBLISHES` from mqtt_operations.c (line 127). -/
def MAX_OUTGOING_PUBLISHES : Nat := 5

/-- `MQTT_PACKET_ID_INVALID` from mqtt_operations.c (line 133): zero is the
invalid packet identifier, marking a free slot. -/
def MQTT_PACKET_ID_INVALID : Nat := 0

/-- `CONNECTION_RETRY_MAX_ATTEMPTS` from mqtt_operations.c (line 106). -/
def CONNECTION_RETRY_MAX_ATTEMPTS : Nat := 5

/-- `CONNECTION_RETRY_MAX_BACKOFF_DELAY_MS` from mqtt_operations.c (line 111). -/
def CONNECTION_RETRY_MAX_BACKOFF_DELAY_MS : Nat := 5000

/-- `CONNECTION_RETRY_BACKOFF_BASE_MS` from mqtt_operations.c (line 116). -/
def CONNECTION_RETRY_BACKOFF_BASE_MS : Nat := 500

/-- The fields of coreMQTT's `MQTTPublishInfo_t` that mqtt_operations.c reads
or writes.  Borrowed `const char *` pointers are modelled as string values;
`qos` (an enum with values 0,1,2) as a `Nat`. -/
structure MQTTPublishInfo where
  qos : Nat
  dup : Bool
  retain : Bool
  pTopicName : String
  topicNameLength : Nat
  pPayload : String
  payloadLength : Nat
deriving DecidableEq

/-- `PublishPackets_t` from mqtt_operations.c (lines 183-194): a packet id
together with the stored publish info. -/
structure PublishPackets where
  packetId : Nat
  pubInfo : MQTTPublishInfo
deriving DecidableEq

/-- The all-zero `PublishPackets_t` record: what `memset(..., 0x00, ...)`
produces, and the initial value of every slot of the static array
`outgoingPublishPackets` (line 232, initialized with `= { 0 }`). -/
def emptyPublishPacket : PublishPackets :=
  { packetId := 0
    pubInfo :=
      { qos := 0, dup := false, retain := false
        pTopicName := "", topicNameLength := 0
        pPayload := "", payloadLength := 0 } }

/-- `getNextFreeIndexForOutgoingPublishes` (mqtt_operations.c lines 483-509):
scan the table in ascending index order and return the first index whose
`packetId` equals `MQTT_PACKET_ID_INVALID`; report failure (here `none`)
when no slot is free. -/
def getNextFreeIndexForOutgoingPublishes : List PublishPackets → Option Nat
  | [] => none
  | r :: rest =>
    if r.packetId = MQTT_PACKET_ID_INVALID then some 0
    else (getNextFreeIndexForOutgoingPublishes rest).map (· + 1)

/-- `cleanupOutgoingPublishAt` (mqtt_operations.c lines 512-521): `memset` the
record at `index` to zero. -/
def cleanupOutgoingPublishAt (t : List PublishPackets) (index : Nat) :
    List PublishPackets :=
  t.set index emptyPublishPacket

/-- `cleanupOutgoingPublishes` (mqtt_operations.c lines 524-530): `memset` the
whole array to zero. -/
def cleanupOutgoingPublishes (t : List PublishPackets) : List PublishPackets :=
  t.map (fun _ => emptyPublishPacket)

/-- `cleanupOutgoingPublishWithPacketID` (mqtt_operations.c lines 533-553):
scan in ascending index order, zero the first record whose `packetId` equals
`packetId`, and `break`; leave the table unchanged when no record matches. -/
def cleanupOutgoingPublishWithPacketID :
    List PublishPackets → Nat → List PublishPackets
  | [], _ => []
  | r :: rest, packetId =>
    if r.packetId = packetId then emptyPublishPacket :: rest
    else r :: cleanupOutgoingPublishWithPacketID rest packetId

/-- A call of `MQTT_Publish` made by the session layer: the publish info
passed and the packet identifier passed.  Used to observe which sends the
embedded code performs. -/
structure PublishOp where
  pub : MQTTPublishInfo
  pid : Nat
deriving DecidableEq

/-- `PublishToTopic` (mqtt_operations.c lines 1040-1102).  Inputs that the C
function obtains from collaborators are parameters: `newPacketId` is the
value returned by `MQTT_GetPacketId`, and `sendOk` is whether the
`MQTT_Publish` call returns `MQTTSuccess`.  Returns the boolean result, the
table after the call, and the `MQTT_Publish` call performed (`none` when no
free slot was found and nothing was sent).  On a free slot the C code sets
`qos := MQTTQoS1` and the topic/payload fields of the slot, stores the new
packet id, sends, and on send failure calls `cleanupOutgoingPublishAt` on the
just-reserved slot and returns false. -/
def PublishToTopic (t : List PublishPackets) (pTopicFilter : String)
    (topicFilterLength : Nat) (pPayload : String) (payloadLength : Nat)
    (newPacketId : Nat) (sendOk : Bool) :
    Bool × List PublishPackets × Option PublishOp :=
  match getNextFreeIndexForOutgoingPublishes t with
  | none => (false, t, none)
  | some publishIndex =>
    let old := t.getD publishIndex emptyPublishPacket
    let pub : MQTTPublishInfo :=
      { old.pubInfo with
          qos := 1
          pTopicName := pTopicFilter
          topicNameLength := topicFilterLength
          pPayload := pPayload
          payloadLength := payloadLength }
    let filled : PublishPackets := { packetId := newPacketId, pubInfo := pub }
    let t1 := t.set publishIndex filled
    if sendOk then
      (true, t1, some ⟨pub, newPacketId⟩)
    else
      (false, cleanupOutgoingPublishAt t1 publishIndex, some ⟨pub, newPacketId⟩)

/-- `handlePublishResend` (mqtt_operations.c lines 641-687), generalized over
the starting slot index of the scan.  For each slot, in ascending index
order: if the slot is live (`packetId != MQTT_PACKET_ID_INVALID`), set its
stored `pubInfo.dup` to `true` and call `MQTT_Publish` with the stored
publish info and packet id; `break` out of the scan when a send fails.  The
oracle `env i` is whether the `MQTT_Publish` call issued at slot `i` returns
`MQTTSuccess`.  Returns the boolean result (`true` iff the scan ran to the
end of the array, i.e. `index == MAX_OUTGOING_PUBLISHES` in the C code), the
table after the call, and the list of `MQTT_Publish` calls performed, each
tagged with its slot index. -/
def handlePublishResendGo (env : Nat → Bool) :
    Nat → List PublishPackets →
    Bool × List PublishPackets × List (Nat × PublishOp)
  | _, [] => (true, [], [])
  | idx, r :: rest =>
    if r.packetId ≠ MQTT_PACKET_ID_INVALID then
      let pub := { r.pubInfo with dup := true }
      let r' : PublishPackets := { r with pubInfo := pub }
      if env idx then
        let res := handlePublishResendGo env (idx + 1) rest
        (res.1, r' :: res.2.1, (idx, ⟨pub, r.packetId⟩) :: res.2.2)
      else
        (false, r' :: rest, [(idx, ⟨pub, r.packetId⟩)])
    else
      let res := handlePublishResendGo env (idx + 1) rest
      (res.1, r :: res.2.1, res.2.2)

/-- `handlePublishResend` proper: the scan starts at slot 0. -/
def handlePublishResend (env : Nat → Bool) (t : List PublishPackets) :
    Bool × List PublishPackets × List (Nat × PublishOp) :=
  handlePublishResendGo env 0 t

/-- The session-resumption decision at the end of `EstablishMqttSession`
(mqtt_operations.c lines 868-891), reached when the connection succeeded:
if `MQTT_Connect` reported `sessionPresent == true`, resend the stored
publishes via `handlePublishResend`; otherwise clear the whole table via
`cleanupOutgoingPublishes` (no resend is attempted, so the op list is
empty and the returned status stays `true`). -/
def onSessionEstablished (env : Nat → Bool) (sessionPresent : Bool)
    (t : List PublishPackets) :
    Bool × List PublishPackets × List (Nat × PublishOp) :=
  if sessionPresent then handlePublishResend env t
  else (true, cleanupOutgoingPublishes t, [])

/-- MQTT control-packet type byte `MQTT_PACKET_TYPE_PUBLISH` (0x30). -/
def MQTT_PACKET_TYPE_PUBLISH : Nat := 0x30

/-- MQTT control-packet type byte `MQTT_PACKET_TYPE_PUBACK` (0x40). -/
def MQTT_PACKET_TYPE_PUBACK : Nat := 0x40

/-- MQTT control-packet type byte `MQTT_PACKET_TYPE_SUBACK` (0x90). -/
def MQTT_PACKET_TYPE_SUBACK : Nat := 0x90

/-- MQTT control-packet type byte `MQTT_PACKET_TYPE_UNSUBACK` (0xB0). -/
def MQTT_PACKET_TYPE_UNSUBACK : Nat := 0xB0

/-- MQTT control-packet type byte `MQTT_PACKET_TYPE_PINGRESP` (0xD0). -/
def MQTT_PACKET_TYPE_PINGRESP : Nat := 0xD0

/-- The static session state of mqtt_operations.c that `mqttCallback`
mutates: the three packet-identifier globals (lines 208-224) and the
outgoing-publish table (line 232). -/
structure DispatchState where
  globalAckPacketIdentifier : Nat
  globalSubscribePacketIdentifier : Nat
  globalUnsubscribePacketIdentifier : Nat
  outgoingPublishPackets : List PublishPackets
deriving DecidableEq

/-- One event dispatched by `MQTT_ProcessLoop` into `mqttCallback`: the
packet type byte of `pPacketInfo->type` and the deserialized
`packetIdentifier`. -/
structure MqttEvent where
  ptype : Nat
  packetIdentifier : Nat
deriving DecidableEq

/-- `mqttCallback` (mqtt_operations.c lines 556-638).  A packet whose masked
type is PUBLISH is forwarded to the application callback and changes no
session state.  SUBACK and UNSUBACK store the carried identifier in
`globalAckPacketIdentifier` (the C code additionally `assert`s that it
equals the corresponding request identifier; `assert` is compiled out under
NDEBUG and performs no state change when it passes).  PUBACK stores the
identifier and releases the matching table slot.  PINGRESP and unknown
types change no state. -/
def mqttCallback (s : DispatchState) (e : MqttEvent) : DispatchState :=
  if e.ptype &&& 0xF0 = MQTT_PACKET_TYPE_PUBLISH then s
  else if e.ptype = MQTT_PACKET_TYPE_SUBACK then
    { s with globalAckPacketIdentifier := e.packetIdentifier }
  else if e.ptype = MQTT_PACKET_TYPE_UNSUBACK then
    { s with globalAckPacketIdentifier := e.packetIdentifier }
  else if e.ptype = MQTT_PACKET_TYPE_PINGRESP then s
  else if e.ptype = MQTT_PACKET_TYPE_PUBACK then
    { s with
        globalAckPacketIdentifier := e.packetIdentifier
        outgoingPublishPackets :=
          cleanupOutgoingPublishWithPacketID s.outgoingPublishPackets
            e.packetIdentifier }
  else s

/-- Whether an event with packet type byte `t` reaches one of the
`mqttCallback` branches that write `globalAckPacketIdentifier`
(SUBACK, UNSUBACK or PUBACK, and not caught by the PUBLISH mask test). -/
def setsAck (t : Nat) : Bool :=
  decide (t &&& 0xF0 ≠ MQTT_PACKET_TYPE_PUBLISH) &&
    (t == MQTT_PACKET_TYPE_SUBACK || t == MQTT_PACKET_TYPE_UNSUBACK ||
      t == MQTT_PACKET_TYPE_PUBACK)

/-- Dispatch, in arrival order, all events decoded during one
`MQTT_ProcessLoop` call. -/
def applyEvents (s : DispatchState) (evs : List MqttEvent) : DispatchState :=
  evs.foldl mqttCallback s

/-- The subset of `MQTTStatus_t` values mqtt_operations.c distinguishes:
`MQTTSuccess`, the recoverable `MQTTNeedMoreBytes`, and a representative of
every other (non-recoverable) status code. -/
inductive MQTTStatus where
  | Success
  | NeedMoreBytes
  | Failure
deriving DecidableEq

/-- The observable behavior of one `MQTT_ProcessLoop` call: the events it
dispatches to `mqttCallback` (in order), the status it returns, and the
value `pMqttContext->getTime()` reads right after it returns. -/
structure LoopStep where
  status : MQTTStatus
  events : List MqttEvent
  timeAfter : Nat
deriving DecidableEq

/-- The `while` loop of `waitForPacketAck` (mqtt_operations.c lines
710-718): keep calling `MQTT_ProcessLoop` while the received ack identifier
differs from the expected one, the current time is before the timeout time,
and the last status is `MQTTSuccess` or `MQTTNeedMoreBytes`.  `steps` is
the oracle of successive `MQTT_ProcessLoop` behaviors; the loop also stops
when the oracle is exhausted (a finite observation window).  Returns the
final status, the final time, the final dispatch state, and the unconsumed
steps. -/
def waitLoopGo (expected deadline : Nat) (steps : List LoopStep)
    (status : MQTTStatus) (time : Nat) (s : DispatchState) :
    MQTTStatus × Nat × DispatchState × List LoopStep :=
  if (s.globalAckPacketIdentifier ≠ expected) ∧ (time < deadline) ∧
      (status = MQTTStatus.Success ∨ status = MQTTStatus.NeedMoreBytes) then
    match steps with
    | [] => (status, time, s, [])
    | st :: rest =>
      waitLoopGo expected deadline rest st.status st.timeAfter
        (applyEvents s st.events)
  else
    (status, time, s, steps)

/-- `waitForPacketAck` (mqtt_operations.c lines 690-734).  Resets
`globalAckPacketIdentifier` to 0, reads the entry time, computes the
timeout time as entry time plus `ulTimeout`, runs the process loop, and
returns `true` exactly when the final status is `MQTTSuccess` or
`MQTTNeedMoreBytes` and the received ack identifier equals
`usPacketIdentifier`.  Time is modelled as an unbounded counter. -/
def waitForPacketAck (steps : List LoopStep) (usPacketIdentifier : Nat)
    (entryTime ulTimeout : Nat) (s0 : DispatchState) :
    Bool × DispatchState × List LoopStep :=
  let s1 := { s0 with globalAckPacketIdentifier := 0 }
  let r := waitLoopGo usPacketIdentifier (entryTime + ulTimeout) steps
    MQTTStatus.Success entryTime s1
  let xStatus :=
    if ((r.1 ≠ MQTTStatus.Success) ∧ (r.1 ≠ MQTTStatus.NeedMoreBytes)) ∨
        (r.2.2.1.globalAckPacketIdentifier ≠ usPacketIdentifier) then
      false
    else
      true
  (xStatus, r.2.2.1, r.2.2.2)

/-- Status values of the vendored backoffAlgorithm library. -/
inductive BackoffAlgorithmStatus where
  | Success
  | RetriesExhausted
deriving DecidableEq

/-- Modelled from the spec: the backoffAlgorithm library's
`BackoffAlgorithmContext_t` is vendored outside this repository's sources
(only `backoff_algorithm.h` is included by mqtt_operations.c).  Spec 3
(BackoffState): attempt counter, base delay, cap delay, maximum attempts. -/
structure BackoffAlgorithmContext where
  attemptsDone : Nat
  backOffBase : Nat
  maxBackoffDelay : Nat
  maxRetryAttempts : Nat
deriving DecidableEq

/-- Modelled from the spec: `BackoffAlgorithm_InitializeParams` creates a
fresh context with the attempt counter at 0 (spec 3, BackoffState lifecycle:
created fresh per connection attempt sequence). -/
def BackoffAlgorithm_InitializeParams (base maxDelay maxAttempts : Nat) :
    BackoffAlgorithmContext :=
  { attemptsDone := 0, backOffBase := base, maxBackoffDelay := maxDelay
    maxRetryAttempts := maxAttempts }

/-- Modelled from the spec (4.1 BackoffPolicy): the pre-jitter delay
ceiling, `candidate = min(base * 2^attempt, cap)` with attempt starting
at 0. -/
def backoffCandidate (c : BackoffAlgorithmContext) : Nat :=
  min (c.backOffBase * 2 ^ c.attemptsDone) c.maxBackoffDelay

/-- Modelled from the spec: `BackoffAlgorithm_GetNextBackoff` (the
implementation is vendored outside src/).  Spec 4.1: compute
`candidate = min(base * 2^attempt, cap)`; emit a randomized delay drawn
from `[0, candidate]` (full jitter, realized here as
`randomValue % (candidate + 1)`); increment the attempt counter; once the
attempts are exhausted return `RetriesExhausted` (terminal), which per the
spec's testable properties happens on the call after `maxAttempts`
successful delays. -/
def BackoffAlgorithm_GetNextBackoff (c : BackoffAlgorithmContext)
    (randomValue : Nat) :
    BackoffAlgorithmStatus × Nat × BackoffAlgorithmContext :=
  if c.attemptsDone < c.maxRetryAttempts then
    (BackoffAlgorithmStatus.Success, randomValue % (backoffCandidate c + 1),
      { c with attemptsDone := c.attemptsDone + 1 })
  else
    (BackoffAlgorithmStatus.RetriesExhausted, 0, c)

/-- Externally visible side effects of `connectToBrokerWithBackoffRetries`:
seeding the process-wide random source (`srand`) and sleeping
(`Clock_SleepMs`). -/
inductive ConnectEffect where
  | seedRandom (seed : Nat)
  | sleep (ms : Nat)
deriving DecidableEq

/-- The `do`/`while` retry loop of `connectToBrokerWithBackoffRetries`
(mqtt_operations.c lines 440-477): attempt `Openssl_Connect`; on success
return `true` immediately; on failure ask `BackoffAlgorithm_GetNextBackoff`
for the next delay, stop with `false` when retries are exhausted, otherwise
sleep the returned delay and try again.  `connectOk n` is the outcome of
the n-th `Openssl_Connect` call and `rands n` the n-th `rand()` value.  The
fuel argument only bounds the recursion; it is instantiated at
`CONNECTION_RETRY_MAX_ATTEMPTS + 1`, which the attempt counter inside the
context can never outrun, so the fuel-exhausted branch is unreachable. -/
def connectRetryLoop (connectOk : Nat → Bool) (rands : Nat → Nat) :
    Nat → BackoffAlgorithmContext → Nat → Bool × List ConnectEffect
  | 0, _, _ => (false, [])
  | fuel + 1, c, n =>
    if connectOk n then (true, [])
    else
      match BackoffAlgorithm_GetNextBackoff c (rands n) with
      | (BackoffAlgorithmStatus.RetriesExhausted, _, _) => (false, [])
      | (BackoffAlgorithmStatus.Success, delay, c') =>
        let res := connectRetryLoop connectOk rands fuel c' (n + 1)
        (res.1, ConnectEffect.sleep delay :: res.2)

/-- `connectToBrokerWithBackoffRetries` (mqtt_operations.c lines 385-480).
Before the retry loop the function unconditionally reads the realtime clock
and calls `srand(tp.tv_nsec)` (lines 426-429); `nowNs` is the nanosecond
reading.  Then it initializes the backoff context with the three
`CONNECTION_RETRY_*` constants and runs the retry loop.  Returns the
boolean result and the ordered list of observable effects of the call. -/
def connectToBrokerWithBackoffRetries (connectOk : Nat → Bool)
    (rands : Nat → Nat) (nowNs : Nat) : Bool × List ConnectEffect :=
  let res := connectRetryLoop connectOk rands
    (CONNECTION_RETRY_MAX_ATTEMPTS + 1)
    (BackoffAlgorithm_InitializeParams CONNECTION_RETRY_BACKOFF_BASE_MS
      CONNECTION_RETRY_MAX_BACKOFF_DELAY_MS CONNECTION_RETRY_MAX_ATTEMPTS)
    0
  (res.1, ConnectEffect.seedRandom nowNs :: res.2)

/-- The `srand` effects among a list of connect effects. -/
def isSeedEffect : ConnectEffect → Bool
  | ConnectEffect.seedRandom _ => true
  | ConnectEffect.sleep _ => false

/-- The realized sleep delays among a list of connect effects, in order. -/
def sleepsOf (effs : List ConnectEffect) : List Nat :=
  effs.filterMap fun e =>
    match e with
    | ConnectEffect.sleep d => some d
    | ConnectEffect.seedRandom _ => none

/-- A sequence of `PublishToTopic` calls whose sends all succeed, issued the
packet identifiers `ps` in order; used to state the capacity scenario of the
spec (reserve N publishes, then one more). -/
def reserveChain (pTopicFilter : String) (topicFilterLength : Nat)
    (pPayload : String) (payloadLength : Nat) (ps : List Nat)
    (t : List PublishPackets) : List PublishPackets :=
  ps.foldl
    (fun tb p =>
      (PublishToTopic tb pTopicFilter topicFilterLength pPayload
        payloadLength p true).2.1)
    t

/-! ### Helper lemmas -/

/-- `getNextFreeIndexForOutgoingPublishes` returns `some i` exactly when
slot `i` is free and every slot before it is live. -/
theorem getNextFree_eq_some (t : List PublishPackets) (i : Nat) :
    getNextFreeIndexForOutgoingPublishes t = some i ↔
      i < t.length ∧ (t.getD i emptyPublishPacket).packetId = 0 ∧
        ∀ j < i, (t.getD j emptyPublishPacket).packetId ≠ 0 := by
  induction t generalizing i with
  | nil => simp [getNextFreeIndexForOutgoingPublishes]
  | cons r rest ih =>
    by_cases hr : r.packetId = MQTT_PACKET_ID_INVALID
    · simp only [getNextFreeIndexForOutgoingPublishes, if_pos hr]
      cases i with
      | zero =>
        simp [hr, MQTT_PACKET_ID_INVALID]
      | succ k =>
        simp only [List.getD_cons_succ, List.length_cons]
        constructor
        · intro h; exact absurd h (by simp)
        · rintro ⟨-, -, hall⟩
          exact absurd (hall 0 (Nat.succ_pos _)) (by simpa [MQTT_PACKET_ID_INVALID] using hr)
    · simp only [getNextFreeIndexForOutgoingPublishes, if_neg hr]
      cases i with
      | zero =>
        simp only [Option.map_eq_some', List.getD_cons_zero]
        constructor
        · rintro ⟨k, -, hk⟩; exact absurd hk (by simp)
        · rintro ⟨-, h0, -⟩
          exact absurd h0 (by simpa [MQTT_PACKET_ID_INVALID] using hr)
      | succ k =>
        simp only [Option.map_eq_some', List.getD_cons_succ, List.length_cons]
        constructor
        · rintro ⟨m, hm, hmk⟩
          have hk : m = k := by omega
          subst hk
          obtain ⟨h1, h2, h3⟩ := (ih m).mp hm
          refine ⟨by omega, h2, ?_⟩
          intro j hj
          cases j with
          | zero => simpa [MQTT_PACKET_ID_INVALID] using hr
          | succ j' => exact h3 j' (by omega)
        · rintro ⟨h1, h2, h3⟩
          refine ⟨k, (ih k).mpr ⟨by omega, h2, ?_⟩, rfl⟩
          intro j hj
          exact h3 (j + 1) (by omega)

/-- `getNextFreeIndexForOutgoingPublishes` fails exactly when every slot is
live. -/
theorem getNextFree_eq_none (t : List PublishPackets) :
    getNextFreeIndexForOutgoingPublishes t = none ↔
      ∀ j < t.length, (t.getD j emptyPublishPacket).packetId ≠ 0 := by
  induction t with
  | nil => simp [getNextFreeIndexForOutgoingPublishes]
  | cons r rest ih =>
    by_cases hr : r.packetId = MQTT_PACKET_ID_INVALID
    · simp only [getNextFreeIndexForOutgoingPublishes, if_pos hr]
      constructor
      · intro h; exact absurd h (by simp)
      · intro hall
        exact absurd (hall 0 (Nat.succ_pos _)) (by simpa [MQTT_PACKET_ID_INVALID] using hr)
    · simp only [getNextFreeIndexForOutgoingPublishes, if_neg hr,
        Option.map_eq_none', List.length_cons]
      rw [ih]
      constructor
      · intro hall j hj
        cases j with
        | zero => simpa [MQTT_PACKET_ID_INVALID] using hr
        | succ j' => simpa using hall j' (by omega)
      · intro hall j hj
        simpa using hall (j + 1) (by omega)

/-- Writing back the element already stored at a valid index leaves a list
unchanged. -/
theorem set_getD_self (t : List PublishPackets) :
    ∀ i, t.set i (t.getD i emptyPublishPacket) = t := by
  induction t with
  | nil => intro i; rfl
  | cons r rest ih =>
    intro i
    cases i with
    | zero => simp
    | succ j => simpa [List.getD] using ih j

/-- A `cleanupOutgoingPublishWithPacketID` scan that matches nothing is the
identity. -/
theorem cleanupWithPacketID_no_match (t : List PublishPackets) (pid : Nat)
    (h : ∀ r ∈ t, r.packetId ≠ pid) :
    cleanupOutgoingPublishWithPacketID t pid = t := by
  induction t with
  | nil => rfl
  | cons r rest ih =>
    have hr : r.packetId ≠ pid := h r (List.mem_cons_self r rest)
    simp only [cleanupOutgoingPublishWithPacketID, if_neg hr]
    rw [ih fun x hx => h x (List.mem_cons_of_mem r hx)]

/-- `cleanupOutgoingPublishWithPacketID` zeroes the first matching slot and
stops there. -/
theorem cleanupWithPacketID_first_match (t : List PublishPackets) (pid : Nat) :
    ∀ i, i < t.length → (t.getD i emptyPublishPacket).packetId = pid →
      (∀ j < i, (t.getD j emptyPublishPacket).packetId ≠ pid) →
      cleanupOutgoingPublishWithPacketID t pid = t.set i emptyPublishPacket := by
  induction t with
  | nil => intro i hi; simp at hi
  | cons r rest ih =>
    intro i hi hmatch hbefore
    cases i with
    | zero =>
      have hr : r.packetId = pid := by simpa using hmatch
      simp [cleanupOutgoingPublishWithPacketID, if_pos hr]
    | succ k =>
      have hr : r.packetId ≠ pid := by
        simpa using hbefore 0 (Nat.succ_pos _)
      simp only [cleanupOutgoingPublishWithPacketID, if_neg hr, List.set_cons_succ]
      rw [ih k (by simpa using hi) (by simpa using hmatch)
        fun j hj => by simpa using hbefore (j + 1) (by omega)]

/-- Releasing a nonzero packet identifier twice is the same as releasing it
once, provided the identifier occupies at most one slot. -/
theorem cleanupWithPacketID_idem (t : List PublishPackets) (pid : Nat)
    (hpid : pid ≠ 0) (hcount : t.countP (fun r => r.packetId == pid) ≤ 1) :
    cleanupOutgoingPublishWithPacketID
        (cleanupOutgoingPublishWithPacketID t pid) pid
      = cleanupOutgoingPublishWithPacketID t pid := by
  induction t with
  | nil => rfl
  | cons r rest ih =>
    by_cases hr : r.packetId = pid
    · simp only [cleanupOutgoingPublishWithPacketID, if_pos hr]
      have hzero : emptyPublishPacket.packetId ≠ pid := fun h => hpid h.symm
      simp only [cleanupOutgoingPublishWithPacketID, if_neg hzero]
      have hrest : rest.countP (fun r => r.packetId == pid) = 0 := by
        have := List.countP_cons_of_pos (fun r : PublishPackets => r.packetId == pid)
          rest (by simpa using hr)
        omega
      rw [cleanupWithPacketID_no_match rest pid]
      intro x hx
      have := (List.countP_eq_zero.mp hrest) x hx
      simpa using this
    · simp only [cleanupOutgoingPublishWithPacketID, if_neg hr]
      rw [ih]
      have := List.countP_cons_of_neg (fun r : PublishPackets => r.packetId == pid)
        rest (by simpa using hr)
      omega

/-- Every entry of `enumFrom n l` carries an index at least `n`. -/
theorem mem_enumFrom_le (l : List PublishPackets) :
    ∀ n, ∀ p ∈ l.enumFrom n, n ≤ p.1 := by
  induction l with
  | nil => intro n p hp; simp [List.enumFrom] at hp
  | cons r rest ih =>
    intro n p hp
    rw [List.enumFrom] at hp
    rcases List.mem_cons.mp hp with h | h
    · subst h; exact Nat.le_refl n
    · exact Nat.le_of_succ_le (ih (n + 1) p h)

/-- The indices produced by `enumFrom` are strictly increasing. -/
theorem enumFrom_pairwise (l : List PublishPackets) :
    ∀ n, List.Pairwise (fun a b : Nat × PublishPackets => a.1 < b.1)
      (l.enumFrom n) := by
  induction l with
  | nil => intro n; simp [List.enumFrom]
  | cons r rest ih =>
    intro n
    rw [List.enumFrom]
    exact List.Pairwise.cons
      (fun p hp => Nat.lt_of_succ_le (mem_enumFrom_le rest (n + 1) p hp))
      (ih (n + 1))

/-- `handlePublishResendGo` when every `MQTT_Publish` on a live slot
succeeds: the scan completes (`true`), every live slot's stored record gets
`dup := true`, and the sends performed are exactly the live entries in
enumeration order, each sent with `dup := true` and its stored
topic/payload/qos and packet id. -/
theorem resendGo_all_ok (env : Nat → Bool) (t : List PublishPackets) :
    ∀ idx, (∀ p ∈ t.enumFrom idx, p.2.packetId ≠ 0 → env p.1 = true) →
      handlePublishResendGo env idx t =
        (true,
         t.map fun r =>
           if r.packetId ≠ 0 then
             { r with pubInfo := { r.pubInfo with dup := true } }
           else r,
         ((t.enumFrom idx).filter fun p => p.2.packetId != 0).map
           fun p => (p.1, ⟨{ p.2.pubInfo with dup := true }, p.2.packetId⟩)) := by
  induction t with
  | nil => intro idx h; simp [handlePublishResendGo, List.enumFrom]
  | cons r rest ih =>
    intro idx h
    rw [List.enumFrom] at h ⊢
    by_cases hr : r.packetId = 0
    · have hcond : ¬(r.packetId ≠ MQTT_PACKET_ID_INVALID) := by
        simp [MQTT_PACKET_ID_INVALID, hr]
      simp only [handlePublishResendGo, if_neg hcond]
      rw [ih (idx + 1) fun p hp => h p (List.mem_cons_of_mem _ hp)]
      simp [hr]
    · have hcond : r.packetId ≠ MQTT_PACKET_ID_INVALID := by
        simpa [MQTT_PACKET_ID_INVALID] using hr
      have henv : env idx = true :=
        h (idx, r) (List.mem_cons_self _ _) (by simpa using hr)
      simp only [handlePublishResendGo, if_pos hcond, henv, if_pos]
      rw [ih (idx + 1) fun p hp => h p (List.mem_cons_of_mem _ hp)]
      simp [hr]

/-- `handlePublishResendGo` when some live slot's send fails: the overall
result is `false`. -/
theorem resendGo_fail (env : Nat → Bool) (t : List PublishPackets) :
    ∀ idx, (∃ p ∈ t.enumFrom idx, p.2.packetId ≠ 0 ∧ env p.1 = false) →
      (handlePublishResendGo env idx t).1 = false := by
  induction t with
  | nil => intro idx h; simp [List.enumFrom] at h
  | cons r rest ih =>
    intro idx h
    obtain ⟨p, hp, hlive, hfail⟩ := h
    rw [List.enumFrom] at hp
    by_cases hcond : r.packetId ≠ MQTT_PACKET_ID_INVALID
    · by_cases henv : env idx = true
      · simp only [handlePublishResendGo, if_pos hcond, henv, if_pos]
        apply ih (idx + 1)
        rcases List.mem_cons.mp hp with hhead | htail
        · exfalso
          rw [hhead] at hfail
          simp [henv] at hfail
        · exact ⟨p, htail, hlive, hfail⟩
      · simp [handlePublishResendGo, if_pos hcond, henv]
    · simp only [handlePublishResendGo, if_neg hcond]
      apply ih (idx + 1)
      rcases List.mem_cons.mp hp with hhead | htail
      · exfalso
        rw [hhead] at hlive
        simp [MQTT_PACKET_ID_INVALID] at hcond
        exact hlive hcond
      · exact ⟨p, htail, hlive, hfail⟩

/-- `handlePublishResendGo` when some live slot's send fails: the scan stops
at the first live slot whose send fails.  The result is `false`, and the
sends performed are exactly the live entries whose sends succeed up to that
slot, followed by the failing slot's own send — no resend operation occurs
past it. -/
theorem resendGo_first_fail (env : Nat → Bool) (t : List PublishPackets) :
    ∀ idx, (∃ p ∈ t.enumFrom idx, p.2.packetId ≠ 0 ∧ env p.1 = false) →
      (handlePublishResendGo env idx t).1 = false
      ∧ (handlePublishResendGo env idx t).2.2 =
          (((t.enumFrom idx).filter fun p => p.2.packetId != 0).takeWhile
              fun p => env p.1).map
            (fun p => (p.1, ⟨{ p.2.pubInfo with dup := true }, p.2.packetId⟩))
          ++ ((((t.enumFrom idx).filter fun p => p.2.packetId != 0).dropWhile
              fun p => env p.1).take 1).map
            (fun p => (p.1, ⟨{ p.2.pubInfo with dup := true }, p.2.packetId⟩)) := by
  induction t with
  | nil => intro idx h; simp [List.enumFrom] at h
  | cons r rest ih =>
    intro idx h
    obtain ⟨p, hp, hlive, hfail⟩ := h
    rw [List.enumFrom] at hp ⊢
    by_cases hr : r.packetId = 0
    · have hcond : ¬(r.packetId ≠ MQTT_PACKET_ID_INVALID) := by
        simp [MQTT_PACKET_ID_INVALID, hr]
      have htail : p ∈ rest.enumFrom (idx + 1) := by
        rcases List.mem_cons.mp hp with hhead | htail
        · exfalso; rw [hhead] at hlive; exact hlive hr
        · exact htail
      obtain ⟨ih1, ih2⟩ := ih (idx + 1) ⟨p, htail, hlive, hfail⟩
      refine ⟨by simpa [handlePublishResendGo, if_neg hcond] using ih1, ?_⟩
      simp only [handlePublishResendGo, if_neg hcond]
      simpa [List.filter_cons, hr] using ih2
    · have hcond : r.packetId ≠ MQTT_PACKET_ID_INVALID := by
        simpa [MQTT_PACKET_ID_INVALID] using hr
      by_cases henv : env idx = true
      · have htail : p ∈ rest.enumFrom (idx + 1) := by
          rcases List.mem_cons.mp hp with hhead | htail
          · exfalso; rw [hhead] at hfail; simp [henv] at hfail
          · exact htail
        obtain ⟨ih1, ih2⟩ := ih (idx + 1) ⟨p, htail, hlive, hfail⟩
        refine ⟨by simpa [handlePublishResendGo, if_pos hcond, henv] using ih1,
          ?_⟩
        simp only [handlePublishResendGo, if_pos hcond, henv, if_pos]
        rw [ih2]
        simp [List.filter_cons, List.takeWhile_cons, List.dropWhile_cons, hr,
          henv]
      · refine ⟨by simp [handlePublishResendGo, if_pos hcond, henv], ?_⟩
        simp only [handlePublishResendGo, if_pos hcond, henv]
        simp [List.filter_cons, List.takeWhile_cons, List.dropWhile_cons, hr,
          henv]

/-- `mqttCallback` either leaves `globalAckPacketIdentifier` unchanged or
sets it to the identifier of an ack-type event. -/
theorem mqttCallback_ack_cases (s : DispatchState) (e : MqttEvent) :
    (mqttCallback s e).globalAckPacketIdentifier
        = s.globalAckPacketIdentifier
    ∨ (setsAck e.ptype = true ∧
        (mqttCallback s e).globalAckPacketIdentifier = e.packetIdentifier) := by
  unfold mqttCallback
  split_ifs with h1 h2 h3 h4 h5
  · left; rfl
  · right; exact ⟨by simp only [setsAck, h2]; decide, rfl⟩
  · right; exact ⟨by simp only [setsAck, h3]; decide, rfl⟩
  · left; rfl
  · right; exact ⟨by simp only [setsAck, h5]; decide, rfl⟩
  · left; rfl

/-- If dispatching a batch of events ends with a given ack identifier, then
either it was already there, or some event in the batch is an ack-type
event carrying exactly that identifier. -/
theorem applyEvents_ack_of_eq (x : Nat) (evs : List MqttEvent) :
    ∀ s : DispatchState,
      (applyEvents s evs).globalAckPacketIdentifier = x →
      s.globalAckPacketIdentifier = x ∨
        ∃ e ∈ evs, setsAck e.ptype = true ∧ e.packetIdentifier = x := by
  induction evs with
  | nil => intro s h; left; exact h
  | cons e rest ih =>
    intro s h
    simp only [applyEvents, List.foldl_cons] at h
    rcases ih (mqttCallback s e) h with h1 | ⟨e', he', hs⟩
    · rcases mqttCallback_ack_cases s e with h2 | ⟨hset, heq⟩
      · left; rw [← h2]; exact h1
      · right; exact ⟨e, List.mem_cons_self _ _, hset, heq.symm.trans h1⟩
    · right; exact ⟨e', List.mem_cons_of_mem _ he', hs⟩

/-- If the ack-wait loop ends with the expected identifier recorded, then
either it was already recorded when the loop began, or some step of the
oracle dispatched an ack-type event carrying exactly that identifier. -/
theorem waitLoopGo_ack (expected deadline : Nat) (steps : List LoopStep) :
    ∀ (status : MQTTStatus) (time : Nat) (s : DispatchState),
      (waitLoopGo expected deadline steps status time
          s).2.2.1.globalAckPacketIdentifier = expected →
      s.globalAckPacketIdentifier = expected ∨
        ∃ st ∈ steps, ∃ e ∈ st.events,
          setsAck e.ptype = true ∧ e.packetIdentifier = expected := by
  induction steps with
  | nil =>
    intro status time s h
    left
    unfold waitLoopGo at h
    split_ifs at h <;> exact h
  | cons st rest ih =>
    intro status time s h
    unfold waitLoopGo at h
    split_ifs at h with hcond
    · rcases ih st.status st.timeAfter (applyEvents s st.events) h with
        h1 | ⟨st', hst', hev⟩
      · rcases applyEvents_ack_of_eq expected st.events s h1 with h2 | ⟨e, he, hev⟩
        · left; exact h2
        · right; exact ⟨st, List.mem_cons_self _ _, e, he, hev⟩
      · right; exact ⟨st', List.mem_cons_of_mem _ hst', hev⟩
    · left; exact h

/-- The ack-wait loop hands back unconsumed oracle steps only when its own
exit condition fired: the expected ack arrived, or the deadline passed, or
the last status was neither `MQTTSuccess` nor the recoverable
`MQTTNeedMoreBytes`.  In particular a `MQTTNeedMoreBytes` status before the
deadline never stops the loop. -/
theorem waitLoopGo_exit (expected deadline : Nat) (steps : List LoopStep) :
    ∀ (status : MQTTStatus) (time : Nat) (s : DispatchState),
      (waitLoopGo expected deadline steps status time s).2.2.2 ≠ [] →
        (waitLoopGo expected deadline steps status time
            s).2.2.1.globalAckPacketIdentifier = expected
        ∨ ¬ (waitLoopGo expected deadline steps status time s).2.1 < deadline
        ∨ ((waitLoopGo expected deadline steps status time s).1
              ≠ MQTTStatus.Success ∧
           (waitLoopGo expected deadline steps status time s).1
              ≠ MQTTStatus.NeedMoreBytes) := by
  induction steps with
  | nil =>
    intro status time s h
    exfalso
    apply h
    unfold waitLoopGo
    split_ifs <;> rfl
  | cons st rest ih =>
    intro status time s h
    unfold waitLoopGo at h ⊢
    split_ifs at h ⊢ with hcond
    · exact ih st.status st.timeAfter (applyEvents s st.events) h
    · push_neg at hcond
      by_cases hack : s.globalAckPacketIdentifier = expected
      · left; exact hack
      · by_cases htime : time < deadline
        · rcases hcond hack htime with ⟨hs, hn⟩
          right; right; exact ⟨hs, hn⟩
        · right; left; exact htime

/-- The retry loop itself never seeds the random source: its only effects
are sleeps. -/
theorem connectRetryLoop_no_seed (connectOk : Nat → Bool)
    (rands : Nat → Nat) :
    ∀ (fuel : Nat) (c : BackoffAlgorithmContext) (n : Nat),
      (connectRetryLoop connectOk rands fuel c n).2.countP isSeedEffect
        = 0 := by
  intro fuel
  induction fuel with
  | zero => intro c n; rfl
  | succ f ih =>
    intro c n
    unfold connectRetryLoop
    by_cases hok : connectOk n
    · simp [hok]
    · by_cases hlt : c.attemptsDone < c.maxRetryAttempts
      · simp [hok, BackoffAlgorithm_GetNextBackoff, hlt, List.countP_cons,
          isSeedEffect, ih]
      · simp [hok, BackoffAlgorithm_GetNextBackoff, hlt]

/-- Every sleep the retry loop performs is bounded by the pre-jitter
candidate of the attempt it belongs to: the j-th sleep of a loop started
with the attempt counter at `a` is at most the candidate for attempt
`a + j`. -/
theorem connectRetryLoop_sleep_bound (connectOk : Nat → Bool)
    (rands : Nat → Nat) (base cap maxA : Nat) :
    ∀ (fuel a n j : Nat),
      (sleepsOf (connectRetryLoop connectOk rands fuel
          ⟨a, base, cap, maxA⟩ n).2).getD j 0
        ≤ backoffCandidate ⟨a + j, base, cap, maxA⟩ := by
  intro fuel
  induction fuel with
  | zero => intro a n j; simp [connectRetryLoop, sleepsOf]
  | succ f ih =>
    intro a n j
    unfold connectRetryLoop
    by_cases hok : connectOk n
    · simp [hok, sleepsOf]
    · by_cases hlt : a < maxA
      · simp only [hok, Bool.false_eq_true, if_false,
          BackoffAlgorithm_GetNextBackoff, hlt, if_pos, sleepsOf,
          List.filterMap_cons]
        cases j with
        | zero =>
          simp only [List.getD_cons_zero, Nat.add_zero]
          exact Nat.le_of_lt_succ
            (Nat.mod_lt _ (Nat.succ_pos (backoffCandidate ⟨a, base, cap, maxA⟩)))
        | succ j' =>
          have hstep : a + (j' + 1) = (a + 1) + j' := by omega
          rw [List.getD_cons_succ, hstep]
          simpa [sleepsOf] using ih (a + 1) (n + 1) j'
      · simp [hok, BackoffAlgorithm_GetNextBackoff, hlt, sleepsOf]

/-- When every connection attempt fails, the retry loop performs one sleep
per remaining backoff attempt and reports failure once retries are
exhausted. -/
theorem connectRetryLoop_allFail (connectOk : Nat → Bool)
    (rands : Nat → Nat) (base cap maxA : Nat)
    (hfail : ∀ m, connectOk m = false) :
    ∀ (fuel a n : Nat), a + fuel = maxA + 1 → a ≤ maxA →
      (connectRetryLoop connectOk rands fuel ⟨a, base, cap, maxA⟩ n).1
          = false
        ∧ (sleepsOf (connectRetryLoop connectOk rands fuel
            ⟨a, base, cap, maxA⟩ n).2).length = maxA - a := by
  intro fuel
  induction fuel with
  | zero => intro a n h1 h2; exact absurd h1 (by omega)
  | succ f ih =>
    intro a n h1 h2
    unfold connectRetryLoop
    by_cases hlt : a < maxA
    · obtain ⟨ihf, ihl⟩ := ih (a + 1) (n + 1) (by omega) (by omega)
      constructor
      · simpa [hfail n, BackoffAlgorithm_GetNextBackoff, hlt] using ihf
      · have : maxA - a = (maxA - (a + 1)) + 1 := by omega
        simp only [hfail n, Bool.false_eq_true, if_false,
          BackoffAlgorithm_GetNextBackoff, hlt, if_pos, sleepsOf,
          List.filterMap_cons]
        simpa [sleepsOf, this] using ihl
    · have ha : a = maxA := by omega
      simp [hfail n, BackoffAlgorithm_GetNextBackoff, hlt, sleepsOf, ha]

/-! ### Claim theorems -/

/-- Claim C7: the backoff policy computes
`candidate = min(base * 2^attempt, cap)` with the attempt starting at 0, so
for base 500, cap 5000, maxAttempts 5 the pre-jitter candidate ceilings over
successive failed attempts are 500, 1000, 2000, 4000, 5000 and the next
backoff request reports `RetriesExhausted`; every delay the policy emits is
at most the current candidate; every delay the connect retry loop actually
sleeps is at most the candidate of its attempt; and when every connection
attempt fails the loop sleeps exactly 5 delays and
`connectToBrokerWithBackoffRetries` stops and returns failure. -/
theorem backoff_candidate_policy (connectOk : Nat → Bool)
    (rands : Nat → Nat) (nowNs r : Nat) (c : BackoffAlgorithmContext) :
    ([0, 1, 2, 3, 4].map (fun k =>
        backoffCandidate ⟨k, CONNECTION_RETRY_BACKOFF_BASE_MS,
          CONNECTION_RETRY_MAX_BACKOFF_DELAY_MS,
          CONNECTION_RETRY_MAX_ATTEMPTS⟩)
        = [500, 1000, 2000, 4000, 5000])
    ∧ ((BackoffAlgorithm_GetNextBackoff
          ⟨5, CONNECTION_RETRY_BACKOFF_BASE_MS,
            CONNECTION_RETRY_MAX_BACKOFF_DELAY_MS,
            CONNECTION_RETRY_MAX_ATTEMPTS⟩ r).1
        = BackoffAlgorithmStatus.RetriesExhausted)
    ∧ ((BackoffAlgorithm_GetNextBackoff c r).1
          = BackoffAlgorithmStatus.Success →
        (BackoffAlgorithm_GetNextBackoff c r).2.1 ≤ backoffCandidate c)
    ∧ (∀ k,
        (sleepsOf (connectToBrokerWithBackoffRetries connectOk rands
            nowNs).2).getD k 0
          ≤ backoffCandidate ⟨k, CONNECTION_RETRY_BACKOFF_BASE_MS,
              CONNECTION_RETRY_MAX_BACKOFF_DELAY_MS,
              CONNECTION_RETRY_MAX_ATTEMPTS⟩)
    ∧ ((∀ m, connectOk m = false) →
        (connectToBrokerWithBackoffRetries connectOk rands nowNs).1 = false
          ∧ (sleepsOf (connectToBrokerWithBackoffRetries connectOk rands
              nowNs).2).length = 5) := by
  refine ⟨by decide, ?_, ?_, ?_, ?_⟩
  · simp [BackoffAlgorithm_GetNextBackoff, CONNECTION_RETRY_MAX_ATTEMPTS]
  · intro hsucc
    unfold BackoffAlgorithm_GetNextBackoff at hsucc ⊢
    by_cases hlt : c.attemptsDone < c.maxRetryAttempts
    · rw [if_pos hlt]
      exact Nat.le_of_lt_succ (Nat.mod_lt _ (Nat.succ_pos _))
    · rw [if_neg hlt] at hsucc
      exact absurd hsucc (by simp)
  · intro k
    have h := connectRetryLoop_sleep_bound connectOk rands
      CONNECTION_RETRY_BACKOFF_BASE_MS CONNECTION_RETRY_MAX_BACKOFF_DELAY_MS
      CONNECTION_RETRY_MAX_ATTEMPTS (CONNECTION_RETRY_MAX_ATTEMPTS + 1) 0 0 k
    simpa [connectToBrokerWithBackoffRetries,
      BackoffAlgorithm_InitializeParams, sleepsOf] using h
  · intro hfail
    have h := connectRetryLoop_allFail connectOk rands
      CONNECTION_RETRY_BACKOFF_BASE_MS CONNECTION_RETRY_MAX_BACKOFF_DELAY_MS
      CONNECTION_RETRY_MAX_ATTEMPTS hfail (CONNECTION_RETRY_MAX_ATTEMPTS + 1)
      0 0 (by omega) (by omega)
    constructor
    · simpa [connectToBrokerWithBackoffRetries,
        BackoffAlgorithm_InitializeParams] using h.1
    · simpa [connectToBrokerWithBackoffRetries,
        BackoffAlgorithm_InitializeParams, sleepsOf,
        CONNECTION_RETRY_MAX_ATTEMPTS] using h.2

/-- Witness for C7: with every connection attempt failing, the call returns
failure after exactly 5 sleeps; and the first delay emitted by the policy at
attempt 0 with random value 7 is within its candidate. -/
theorem backoff_candidate_policy_witness :
    ((connectToBrokerWithBackoffRetries (fun _ => false) (fun _ => 0) 0).1
        = false
      ∧ (sleepsOf (connectToBrokerWithBackoffRetries (fun _ => false)
          (fun _ => 0) 0).2).length = 5)
    ∧ (BackoffAlgorithm_GetNextBackoff
          (BackoffAlgorithm_InitializeParams CONNECTION_RETRY_BACKOFF_BASE_MS
            CONNECTION_RETRY_MAX_BACKOFF_DELAY_MS
            CONNECTION_RETRY_MAX_ATTEMPTS) 7).2.1
        ≤ backoffCandidate
            (BackoffAlgorithm_InitializeParams CONNECTION_RETRY_BACKOFF_BASE_MS
              CONNECTION_RETRY_MAX_BACKOFF_DELAY_MS
              CONNECTION_RETRY_MAX_ATTEMPTS) :=
  ⟨(backoff_candidate_policy (fun _ => false) (fun _ => 0) 0 7
      (BackoffAlgorithm_InitializeParams CONNECTION_RETRY_BACKOFF_BASE_MS
        CONNECTION_RETRY_MAX_BACKOFF_DELAY_MS
        CONNECTION_RETRY_MAX_ATTEMPTS)).2.2.2.2 (fun _ => rfl),
   (backoff_candidate_policy (fun _ => false) (fun _ => 0) 0 7
      (BackoffAlgorithm_InitializeParams CONNECTION_RETRY_BACKOFF_BASE_MS
        CONNECTION_RETRY_MAX_BACKOFF_DELAY_MS
        CONNECTION_RETRY_MAX_ATTEMPTS)).2.2.1 (by decide)⟩

/-- Counterexample to claim C8 as stated: the seeding step is not performed
only on the first of two connection-establishment calls within a process —
each call to `connectToBrokerWithBackoffRetries` performs its own `srand`
(mqtt_operations.c lines 426-429 run unconditionally at entry), so across
two calls the seeding step runs twice, not once. -/
theorem seed_reseeded_every_call_counterexample :
    (connectToBrokerWithBackoffRetries (fun _ => true) (fun _ => 0)
        0).2.countP isSeedEffect = 1
    ∧ (connectToBrokerWithBackoffRetries (fun _ => true) (fun _ => 0)
        1).2.countP isSeedEffect = 1
    ∧ ((connectToBrokerWithBackoffRetries (fun _ => true) (fun _ => 0) 0).2
          ++ (connectToBrokerWithBackoffRetries (fun _ => true) (fun _ => 0)
            1).2).countP isSeedEffect ≠ 1 := by
  decide

/-- Claim C8 as amended: the random source is seeded from a high-resolution
clock reading exactly once per call to the connection-establishment
operation — at entry to `connectToBrokerWithBackoffRetries`, before the
retry loop — and is not reseeded per attempt within the loop; each of two
calls within one process therefore performs the seeding step once. -/
theorem seed_once_per_connect_call (connectOk : Nat → Bool)
    (rands : Nat → Nat) (nowNs : Nat) :
    (connectToBrokerWithBackoffRetries connectOk rands nowNs).2.countP
        isSeedEffect = 1
    ∧ (connectToBrokerWithBackoffRetries connectOk rands nowNs).2.head?
        = some (ConnectEffect.seedRandom nowNs) := by
  constructor
  · have h0 := connectRetryLoop_no_seed connectOk rands
      (CONNECTION_RETRY_MAX_ATTEMPTS + 1)
      (BackoffAlgorithm_InitializeParams CONNECTION_RETRY_BACKOFF_BASE_MS
        CONNECTION_RETRY_MAX_BACKOFF_DELAY_MS CONNECTION_RETRY_MAX_ATTEMPTS)
      0
    simp [connectToBrokerWithBackoffRetries, List.countP_cons, isSeedEffect,
      h0]
  · rfl

/-- Claim C3: `waitForPacketAck` reports success only when an ack carrying
exactly the expected (nonzero) packet identifier was processed — if no step
of the process loop dispatches an ack-type event with that identifier, the
wait returns `false` (a mismatched ack does not resolve it) — and the wait
loop never stops with oracle steps left over while the expected ack is
missing, the deadline has not passed, and the status is `MQTTSuccess` or
the recoverable `MQTTNeedMoreBytes`. -/
theorem waitForPacketAck_exact_match (steps : List LoopStep)
    (usPacketIdentifier entryTime ulTimeout : Nat) (s : DispatchState)
    (hexp : usPacketIdentifier ≠ 0) :
    ((∀ st ∈ steps, ∀ e ∈ st.events,
        setsAck e.ptype = true → e.packetIdentifier ≠ usPacketIdentifier) →
      (waitForPacketAck steps usPacketIdentifier entryTime ulTimeout s).1
        = false)
    ∧ (∀ (status : MQTTStatus) (time : Nat) (s0 : DispatchState),
        (waitLoopGo usPacketIdentifier (entryTime + ulTimeout) steps status
            time s0).2.2.2 ≠ [] →
          (waitLoopGo usPacketIdentifier (entryTime + ulTimeout) steps status
              time s0).2.2.1.globalAckPacketIdentifier = usPacketIdentifier
          ∨ ¬ (waitLoopGo usPacketIdentifier (entryTime + ulTimeout) steps
                status time s0).2.1 < entryTime + ulTimeout
          ∨ ((waitLoopGo usPacketIdentifier (entryTime + ulTimeout) steps
                status time s0).1 ≠ MQTTStatus.Success ∧
             (waitLoopGo usPacketIdentifier (entryTime + ulTimeout) steps
                status time s0).1 ≠ MQTTStatus.NeedMoreBytes)) := by
  constructor
  · intro hnomatch
    have hne : (waitLoopGo usPacketIdentifier (entryTime + ulTimeout) steps
        MQTTStatus.Success entryTime
        { s with globalAckPacketIdentifier := 0 }).2.2.1.globalAckPacketIdentifier
          ≠ usPacketIdentifier := by
      intro heq
      rcases waitLoopGo_ack usPacketIdentifier (entryTime + ulTimeout) steps
          MQTTStatus.Success entryTime
          { s with globalAckPacketIdentifier := 0 } heq with h0 | ⟨st, hst, e, he, hset, hid⟩
      · exact hexp h0.symm
      · exact hnomatch st hst e he hset hid
    simp only [waitForPacketAck]
    rw [if_pos (Or.inr hne)]
  · exact waitLoopGo_exit usPacketIdentifier (entryTime + ulTimeout) steps

/-- Witness for C3: a PUBACK for identifier 7 does not resolve a wait for
identifier 5; and a loop run that stops with a step left over stopped
because the expected ack (id 5) had been recorded. -/
theorem waitForPacketAck_exact_match_witness :
    (waitForPacketAck [⟨MQTTStatus.Success, [⟨MQTT_PACKET_TYPE_PUBACK, 7⟩], 1⟩]
        5 0 10 ⟨0, 0, 0, []⟩).1 = false
    ∧ ((waitLoopGo 5 (0 + 10)
          [⟨MQTTStatus.Success, [⟨MQTT_PACKET_TYPE_PUBACK, 5⟩], 1⟩,
           ⟨MQTTStatus.Success, [], 2⟩] MQTTStatus.Success 0
          ⟨0, 0, 0, []⟩).2.2.1.globalAckPacketIdentifier = 5
        ∨ ¬ (waitLoopGo 5 (0 + 10)
              [⟨MQTTStatus.Success, [⟨MQTT_PACKET_TYPE_PUBACK, 5⟩], 1⟩,
               ⟨MQTTStatus.Success, [], 2⟩] MQTTStatus.Success 0
              ⟨0, 0, 0, []⟩).2.1 < 0 + 10
        ∨ ((waitLoopGo 5 (0 + 10)
              [⟨MQTTStatus.Success, [⟨MQTT_PACKET_TYPE_PUBACK, 5⟩], 1⟩,
               ⟨MQTTStatus.Success, [], 2⟩] MQTTStatus.Success 0
              ⟨0, 0, 0, []⟩).1 ≠ MQTTStatus.Success ∧
            (waitLoopGo 5 (0 + 10)
              [⟨MQTTStatus.Success, [⟨MQTT_PACKET_TYPE_PUBACK, 5⟩], 1⟩,
               ⟨MQTTStatus.Success, [], 2⟩] MQTTStatus.Success 0
              ⟨0, 0, 0, []⟩).1 ≠ MQTTStatus.NeedMoreBytes)) :=
  ⟨(waitForPacketAck_exact_match
      [⟨MQTTStatus.Success, [⟨MQTT_PACKET_TYPE_PUBACK, 7⟩], 1⟩] 5 0 10
      ⟨0, 0, 0, []⟩ (by decide)).1 (by decide),
   (waitForPacketAck_exact_match
      [⟨MQTTStatus.Success, [⟨MQTT_PACKET_TYPE_PUBACK, 5⟩], 1⟩,
       ⟨MQTTStatus.Success, [], 2⟩] 5 0 10 ⟨0, 0, 0, []⟩ (by decide)).2
      MQTTStatus.Success 0 ⟨0, 0, 0, []⟩ (by decide)⟩

/-- Claim C10: `waitForPacketAck` zeroes `globalAckPacketIdentifier` at
entry, before running the process loop, so its outcome is independent of
whatever ack identifier was recorded before the call; and it can return
`true` (for a valid nonzero expected identifier) only if some step of this
call dispatched an ack-type event carrying exactly the expected
identifier. -/
theorem waitForPacketAck_resets_stale_ack (steps : List LoopStep)
    (usPacketIdentifier entryTime ulTimeout a : Nat) (s : DispatchState)
    (hexp : usPacketIdentifier ≠ 0) :
    (waitForPacketAck steps usPacketIdentifier entryTime ulTimeout
        { s with globalAckPacketIdentifier := a }
      = waitForPacketAck steps usPacketIdentifier entryTime ulTimeout s)
    ∧ ((waitForPacketAck steps usPacketIdentifier entryTime ulTimeout s).1
          = true →
        ∃ st ∈ steps, ∃ e ∈ st.events,
          setsAck e.ptype = true ∧
            e.packetIdentifier = usPacketIdentifier) := by
  constructor
  · rfl
  · intro htrue
    simp only [waitForPacketAck] at htrue
    split_ifs at htrue with hcond
    push_neg at hcond
    rcases waitLoopGo_ack usPacketIdentifier (entryTime + ulTimeout) steps
        MQTTStatus.Success entryTime
        { s with globalAckPacketIdentifier := 0 } hcond.2 with h0 | hex
    · exact absurd h0.symm hexp
    · exact hex

/-- Witness for C10: with a stale recorded ack 5 in the pre-call state and
an empty oracle, the wait for id 5 behaves exactly as with a clean state
(and fails); and a run that returns `true` contains the matching ack
event. -/
theorem waitForPacketAck_resets_stale_ack_witness :
    (waitForPacketAck [] 5 0 10 ⟨5, 0, 0, []⟩
      = waitForPacketAck [] 5 0 10 ⟨0, 0, 0, []⟩)
    ∧ ((waitForPacketAck
          [⟨MQTTStatus.Success, [⟨MQTT_PACKET_TYPE_PUBACK, 5⟩], 1⟩] 5 0 10
          ⟨0, 0, 0, []⟩).1 = true →
        ∃ st ∈ [(⟨MQTTStatus.Success, [⟨MQTT_PACKET_TYPE_PUBACK, 5⟩], 1⟩ :
            LoopStep)], ∃ e ∈ st.events,
          setsAck e.ptype = true ∧ e.packetIdentifier = 5) :=
  ⟨(waitForPacketAck_resets_stale_ack [] 5 0 10 5 ⟨0, 0, 0, []⟩
      (by decide)).1,
   (waitForPacketAck_resets_stale_ack
      [⟨MQTTStatus.Success, [⟨MQTT_PACKET_TYPE_PUBACK, 5⟩], 1⟩] 5 0 10 0
      ⟨0, 0, 0, []⟩ (by decide)).2⟩

/-- Claim C1: on a resumed session (`sessionPresent = true`), with `k` live
records in the table, exactly the live slots are resent, one send per live
slot, in ascending slot-index order (the ops are the live entries of the
table's enumeration, whose indices are strictly increasing), each send
carrying `dup := true` and the stored topic/payload/qos and packet id
unchanged; if every send succeeds the operation reports success, and if any
live slot's send fails the scan stops at the first failing live slot — the
sends performed are exactly the succeeding live prefix plus that one
failing send, with no resend operation past it — and the operation reports
failure instead of success. -/
theorem resend_on_resume (env : Nat → Bool) (t : List PublishPackets) :
    ((∀ p ∈ t.enum, p.2.packetId ≠ 0 → env p.1 = true) →
      onSessionEstablished env true t =
        (true,
         t.map fun r =>
           if r.packetId ≠ 0 then
             { r with pubInfo := { r.pubInfo with dup := true } }
           else r,
         (t.enum.filter fun p => p.2.packetId != 0).map
           fun p => (p.1, ⟨{ p.2.pubInfo with dup := true }, p.2.packetId⟩))
        ∧ List.Pairwise (· < ·)
            ((onSessionEstablished env true t).2.2.map Prod.fst))
    ∧ ((∃ p ∈ t.enum, p.2.packetId ≠ 0 ∧ env p.1 = false) →
        (onSessionEstablished env true t).1 = false
        ∧ (onSessionEstablished env true t).2.2 =
            ((t.enum.filter fun p => p.2.packetId != 0).takeWhile
                fun p => env p.1).map
              (fun p =>
                (p.1, ⟨{ p.2.pubInfo with dup := true }, p.2.packetId⟩))
            ++ (((t.enum.filter fun p => p.2.packetId != 0).dropWhile
                fun p => env p.1).take 1).map
              (fun p =>
                (p.1, ⟨{ p.2.pubInfo with dup := true }, p.2.packetId⟩))) := by
  constructor
  · intro hall
    have heq := resendGo_all_ok env t 0 (by simpa [List.enum] using hall)
    have hmain : onSessionEstablished env true t =
        (true,
         t.map fun r =>
           if r.packetId ≠ 0 then
             { r with pubInfo := { r.pubInfo with dup := true } }
           else r,
         (t.enum.filter fun p => p.2.packetId != 0).map
           fun p => (p.1, ⟨{ p.2.pubInfo with dup := true }, p.2.packetId⟩)) := by
      simpa [onSessionEstablished, handlePublishResend, List.enum] using heq
    refine ⟨hmain, ?_⟩
    have hp : List.Pairwise (fun a b : Nat × PublishPackets => a.1 < b.1)
        (t.enum.filter fun p => p.2.packetId != 0) :=
      List.Pairwise.filter _ (by simpa [List.enum] using enumFrom_pairwise t 0)
    rw [hmain]
    simp only [List.map_map, List.pairwise_map]
    exact hp.imp fun hab => by simpa using hab
  · intro hfail
    obtain ⟨h1, h2⟩ :=
      resendGo_first_fail env t 0 (by simpa [List.enum] using hfail)
    constructor
    · simpa [onSessionEstablished, handlePublishResend] using h1
    · simpa [onSessionEstablished, handlePublishResend, List.enum] using h2

/-- Witness for C1 at concrete tables: with an all-success send oracle the
live records in slots 0 and 2 are both resent in order with `dup := true`;
with an oracle that only succeeds at slot 0, on a table with live slots
0, 1 and 2, the operation reports failure and the sends performed are
exactly slot 0's and the failing slot 1's — slot 2 is not resent. -/
theorem resend_on_resume_witness :
    onSessionEstablished (fun _ => true) true
        [{ emptyPublishPacket with packetId := 7 }, emptyPublishPacket,
         { emptyPublishPacket with packetId := 9 }]
      = (true,
         [{ packetId := 7,
            pubInfo := { emptyPublishPacket.pubInfo with dup := true } },
          emptyPublishPacket,
          { packetId := 9,
            pubInfo := { emptyPublishPacket.pubInfo with dup := true } }],
         [(0, ⟨{ emptyPublishPacket.pubInfo with dup := true }, 7⟩),
          (2, ⟨{ emptyPublishPacket.pubInfo with dup := true }, 9⟩)])
    ∧ ((onSessionEstablished (fun i => decide (i = 0)) true
          [{ emptyPublishPacket with packetId := 7 },
           { emptyPublishPacket with packetId := 9 },
           { emptyPublishPacket with packetId := 11 }]).1 = false
        ∧ (onSessionEstablished (fun i => decide (i = 0)) true
            [{ emptyPublishPacket with packetId := 7 },
             { emptyPublishPacket with packetId := 9 },
             { emptyPublishPacket with packetId := 11 }]).2.2
          = [(0, ⟨{ emptyPublishPacket.pubInfo with dup := true }, 7⟩),
             (1, ⟨{ emptyPublishPacket.pubInfo with dup := true }, 9⟩)]) :=
  ⟨((resend_on_resume (fun _ => true)
      [{ emptyPublishPacket with packetId := 7 }, emptyPublishPacket,
       { emptyPublishPacket with packetId := 9 }]).1
        (by decide)).1.trans (by decide),
   ((resend_on_resume (fun i => decide (i = 0))
      [{ emptyPublishPacket with packetId := 7 },
       { emptyPublishPacket with packetId := 9 },
       { emptyPublishPacket with packetId := 11 }]).2 (by decide)).1,
   ((resend_on_resume (fun i => decide (i = 0))
      [{ emptyPublishPacket with packetId := 7 },
       { emptyPublishPacket with packetId := 9 },
       { emptyPublishPacket with packetId := 11 }]).2 (by decide)).2.trans
     (by decide)⟩

/-- Claim C4: for every prior state of the outgoing-publish table, a
connection that completes with a clean (non-resumed) session
(`sessionPresent = false`) clears every slot of the table — the table
becomes all-zero with zero live records — and performs no resend
operation. -/
theorem clean_session_clears_table (env : Nat → Bool)
    (t : List PublishPackets) :
    onSessionEstablished env false t
        = (true, List.replicate t.length emptyPublishPacket, [])
      ∧ (onSessionEstablished env false t).2.1.countP
          (fun r => r.packetId != 0) = 0 := by
  have h1 : onSessionEstablished env false t
      = (true, List.replicate t.length emptyPublishPacket, []) := by
    simp [onSessionEstablished, cleanupOutgoingPublishes, List.map_const']
  refine ⟨h1, ?_⟩
  rw [h1]
  rw [List.countP_eq_zero]
  intro a ha
  rw [List.eq_of_mem_replicate ha]
  simp [emptyPublishPacket]

/-- Claim C5: `cleanupOutgoingPublishWithPacketID` with a nonzero id zeroes
the (first) slot whose `packetId` matches, is a no-op — not an error — when
no slot matches, and consequently releasing the same id twice leaves the
table exactly as a single release does, provided the nonzero id occupies at
most one slot (the table invariant: identifiers are never reused while
still tracked). -/
theorem release_packet_id_idempotent (t : List PublishPackets) (pid i : Nat)
    (hpid : pid ≠ MQTT_PACKET_ID_INVALID) :
    ((∀ r ∈ t, r.packetId ≠ pid) →
      cleanupOutgoingPublishWithPacketID t pid = t)
    ∧ (i < t.length → (t.getD i emptyPublishPacket).packetId = pid →
        (∀ j < i, (t.getD j emptyPublishPacket).packetId ≠ pid) →
        cleanupOutgoingPublishWithPacketID t pid = t.set i emptyPublishPacket)
    ∧ (t.countP (fun r => r.packetId == pid) ≤ 1 →
        cleanupOutgoingPublishWithPacketID
            (cleanupOutgoingPublishWithPacketID t pid) pid
          = cleanupOutgoingPublishWithPacketID t pid) := by
  refine ⟨cleanupWithPacketID_no_match t pid, cleanupWithPacketID_first_match t pid i, ?_⟩
  intro hcount
  exact cleanupWithPacketID_idem t pid
    (by simpa [MQTT_PACKET_ID_INVALID] using hpid) hcount

/-- Witness for C5 at a concrete table: id 7 lives in slot 0; releasing it
twice equals releasing it once. -/
theorem release_packet_id_idempotent_witness :
    cleanupOutgoingPublishWithPacketID
        (cleanupOutgoingPublishWithPacketID
          [{ emptyPublishPacket with packetId := 7 }, emptyPublishPacket] 7) 7
      = cleanupOutgoingPublishWithPacketID
          [{ emptyPublishPacket with packetId := 7 }, emptyPublishPacket] 7 :=
  (release_packet_id_idempotent
    [{ emptyPublishPacket with packetId := 7 }, emptyPublishPacket] 7 0
    (by decide)).2.2 (by decide)

/-- Claim C6: when every slot of the outgoing-publish table is live, a
`PublishToTopic` call fails its slot lookup, returns `false`, performs no
`MQTT_Publish` call, and leaves the table unchanged. -/
theorem reserve_on_full_table (t : List PublishPackets) (pTopicFilter : String)
    (topicFilterLength : Nat) (pPayload : String) (payloadLength : Nat)
    (newPacketId : Nat) (sendOk : Bool)
    (h : ∀ j < t.length, (t.getD j emptyPublishPacket).packetId ≠ 0) :
    PublishToTopic t pTopicFilter topicFilterLength pPayload payloadLength
        newPacketId sendOk = (false, t, none) := by
  have hnone : getNextFreeIndexForOutgoingPublishes t = none :=
    (getNextFree_eq_none t).mpr h
  simp [PublishToTopic, hnone]

/-- Witness for C6 at a concrete full table of capacity 5. -/
theorem reserve_on_full_table_witness :
    PublishToTopic
        [{ emptyPublishPacket with packetId := 1 },
         { emptyPublishPacket with packetId := 2 },
         { emptyPublishPacket with packetId := 3 },
         { emptyPublishPacket with packetId := 4 },
         { emptyPublishPacket with packetId := 5 }] "topic" 5 "data" 4 9 true
      = (false,
         [{ emptyPublishPacket with packetId := 1 },
          { emptyPublishPacket with packetId := 2 },
          { emptyPublishPacket with packetId := 3 },
          { emptyPublishPacket with packetId := 4 },
          { emptyPublishPacket with packetId := 5 }], none) :=
  reserve_on_full_table _ _ _ _ _ _ _ (by decide)

/-- Claim C2: reserving a slot scans the fixed-capacity table in ascending
slot-index order and picks the first slot whose `packetId` is the invalid
sentinel 0; when no slot is free the lookup fails, `PublishToTopic` returns
`false`, performs no `MQTT_Publish` call and changes nothing; and in
particular, after 5 successful QoS1 reserves (nonzero assigned identifiers)
into the capacity-5 table a 6th reserve fails and sends nothing. -/
theorem reserve_scan_first_free (t : List PublishPackets) (i : Nat)
    (pTopicFilter pPayload : String) (topicFilterLength payloadLength : Nat)
    (newPacketId : Nat) (sendOk : Bool) (p1 p2 p3 p4 p5 p6 : Nat)
    (hp1 : p1 ≠ 0) (hp2 : p2 ≠ 0) (hp3 : p3 ≠ 0) (hp4 : p4 ≠ 0)
    (hp5 : p5 ≠ 0) :
    (getNextFreeIndexForOutgoingPublishes t = some i ↔
      i < t.length ∧ (t.getD i emptyPublishPacket).packetId = 0 ∧
        ∀ j < i, (t.getD j emptyPublishPacket).packetId ≠ 0)
    ∧ (getNextFreeIndexForOutgoingPublishes t = none ↔
        ∀ j < t.length, (t.getD j emptyPublishPacket).packetId ≠ 0)
    ∧ (getNextFreeIndexForOutgoingPublishes t = none →
        PublishToTopic t pTopicFilter topicFilterLength pPayload
          payloadLength newPacketId sendOk = (false, t, none))
    ∧ ((PublishToTopic
          (reserveChain pTopicFilter topicFilterLength pPayload payloadLength
            [p1, p2, p3, p4, p5] (List.replicate 5 emptyPublishPacket))
          pTopicFilter topicFilterLength pPayload payloadLength p6
          sendOk).1 = false
        ∧ (PublishToTopic
            (reserveChain pTopicFilter topicFilterLength pPayload
              payloadLength [p1, p2, p3, p4, p5]
              (List.replicate 5 emptyPublishPacket))
            pTopicFilter topicFilterLength pPayload payloadLength p6
            sendOk).2.2 = none) := by
  refine ⟨getNextFree_eq_some t i, getNextFree_eq_none t, ?_, ?_⟩
  · intro hnone
    simp [PublishToTopic, hnone]
  · constructor <;>
      simp [reserveChain, PublishToTopic, getNextFreeIndexForOutgoingPublishes,
        emptyPublishPacket, MQTT_PACKET_ID_INVALID, hp1, hp2, hp3, hp4, hp5,
        List.replicate]

/-- Witness for C2: reserving packet ids 1..5 fills the table; the 6th
reserve fails. -/
theorem reserve_scan_first_free_witness :
    (PublishToTopic
        (reserveChain "topic" 5 "data" 4 [1, 2, 3, 4, 5]
          (List.replicate 5 emptyPublishPacket)) "topic" 5 "data" 4 6
        true).1 = false :=
  (reserve_scan_first_free [] 0 "topic" "data" 5 4 9 true 1 2 3 4 5 6
    (by decide) (by decide) (by decide) (by decide) (by decide)).2.2.2.1

/-- Claim C9: when the `MQTT_Publish` send fails after a slot was reserved
and filled, `PublishToTopic` clears the just-reserved slot again and
returns `false`; under the table invariant that every free slot is
all-zero (which holds in every reachable state, since slots are freed only
by `memset` to zero and start zeroed), the table after the failed call
equals the table before it.  The `some` component records that the
`MQTT_Publish` call itself was made with the filled record. -/
theorem failed_publish_restores_table (t : List PublishPackets)
    (pTopicFilter pPayload : String) (topicFilterLength payloadLength : Nat)
    (newPacketId i : Nat)
    (hfind : getNextFreeIndexForOutgoingPublishes t = some i)
    (hinv : ∀ r ∈ t, r.packetId = 0 → r = emptyPublishPacket) :
    PublishToTopic t pTopicFilter topicFilterLength pPayload payloadLength
        newPacketId false
      = (false, t,
         some
           { pub :=
               { (t.getD i emptyPublishPacket).pubInfo with
                   qos := 1
                   pTopicName := pTopicFilter
                   topicNameLength := topicFilterLength
                   pPayload := pPayload
                   payloadLength := payloadLength }
             pid := newPacketId }) := by
  obtain ⟨hlt, hfree, -⟩ := (getNextFree_eq_some t i).mp hfind
  have hempty : t.getD i emptyPublishPacket = emptyPublishPacket := by
    apply hinv
    · rw [List.getD_eq_getElem t emptyPublishPacket hlt]
      exact List.getElem_mem hlt
    · exact hfree
  have hset : t.set i emptyPublishPacket = t := by
    rw [← hempty]
    exact set_getD_self t i
  simp only [PublishToTopic, hfind]
  rw [if_neg Bool.false_ne_true, cleanupOutgoingPublishAt, List.set_set, hset]

/-- Witness for C9: a failed send on a table with one live record and free
zeroed slots leaves the table as it was. -/
theorem failed_publish_restores_table_witness :
    PublishToTopic [{ emptyPublishPacket with packetId := 3 },
        emptyPublishPacket] "topic" 5 "data" 4 9 false
      = (false,
         [{ emptyPublishPacket with packetId := 3 }, emptyPublishPacket],
         some
           { pub :=
               { ([{ emptyPublishPacket with packetId := 3 },
                   emptyPublishPacket].getD 1
                     emptyPublishPacket).pubInfo with
                   qos := 1
                   pTopicName := "topic"
                   topicNameLength := 5
                   pPayload := "data"
                   payloadLength := 4 }
             pid := 9 }) :=
  failed_publish_restores_table
    [{ emptyPublishPacket with packetId := 3 }, emptyPublishPacket]
    "topic" "data" 5 4 9 1 (by decide) (by decide)
